import Mathlib

/-!
Verification of the resilience layer of the quotron proxies (tiny-ria).

The definitions below are a shallow embedding of the Python sources:

* SimpleCache          from api-scraper/scripts/yfinance_proxy.py (lines 89-181)
* StockDataProvider    from api-scraper/scripts/yfinance_proxy.py (lines 187-306)
* heartbeat_check      from api-scraper/scripts/yfinance_proxy.py (lines 374-419)
                       and api-scraper/scripts/economic_proxy.py (lines 812-857),
                       which are structurally identical
* HealthMonitor        from browser-scraper/src/health_monitor.py (lines 26-144)
* HealthClient         from health/client.py (lines 22-82)
* CircuitBreaker and RetryPolicy are modelled from the spec (see their
  doc comments): the corresponding code was removed from the sources.

Wall-clock time is a Nat parameter passed to every time-dependent
operation; Python dictionaries become association lists whose update
operation replaces the previous binding; exceptions become Except values;
the outcome of an HTTP request or database write is an explicit input of
the function that performs it.
-/

/-- Lookup in an association list, total, first binding wins.  Models
Python dictionary lookup. -/
def mapLookup [DecidableEq K] : List (K × V) → K → Option V
  | [], _ => none
  | (a, b) :: rest, k => if a = k then some b else mapLookup rest k

/-- Remove every binding of a key.  Models Python `del d[k]`. -/
def mapErase [DecidableEq K] : List (K × V) → K → List (K × V)
  | [], _ => []
  | p :: rest, k => if p.1 = k then mapErase rest k else p :: mapErase rest k

/-- Replace-or-insert a binding.  Models Python `d[k] = v`. -/
def mapInsert [DecidableEq K] (l : List (K × V)) (k : K) (v : V) : List (K × V) :=
  (k, v) :: mapErase l k

theorem mapLookup_erase_self [DecidableEq K] (l : List (K × V)) (k : K) :
    mapLookup (mapErase l k) k = none := by
  induction l with
  | nil => rfl
  | cons p rest ih =>
    by_cases hpk : p.1 = k
    · simpa [mapErase, hpk] using ih
    · simpa [mapErase, mapLookup, hpk] using ih

theorem mapLookup_erase_ne [DecidableEq K] (l : List (K × V)) (k k1 : K) (h : k1 ≠ k) :
    mapLookup (mapErase l k) k1 = mapLookup l k1 := by
  induction l with
  | nil => rfl
  | cons p rest ih =>
    by_cases hpk : p.1 = k
    · have hone : p.1 ≠ k1 := fun hc => h (hc ▸ hpk.symm ▸ rfl)
      simp [mapErase, mapLookup, hpk, hone, ih, h, h.symm]
    · by_cases hp1 : p.1 = k1 <;> simp [mapErase, mapLookup, hpk, hp1, ih, h, h.symm]

theorem mapLookup_insert_self [DecidableEq K] (l : List (K × V)) (k : K) (v : V) :
    mapLookup (mapInsert l k v) k = some v := by
  simp [mapInsert, mapLookup]

theorem mapErase_length_le [DecidableEq K] (l : List (K × V)) (k : K) :
    (mapErase l k).length ≤ l.length := by
  induction l with
  | nil => exact Nat.le_refl _
  | cons p rest ih =>
    by_cases hpk : p.1 = k
    · simp only [mapErase, hpk, if_pos, List.length_cons]
      omega
    · simp only [mapErase, hpk, if_neg, List.length_cons, ite_false]
      omega

theorem mapErase_length_lt [DecidableEq K] (l : List (K × V)) (k : K) (v : V)
    (h : mapLookup l k = some v) : (mapErase l k).length < l.length := by
  induction l with
  | nil => simp [mapLookup] at h
  | cons p rest ih =>
    by_cases hpk : p.1 = k
    · have hle : (mapErase rest k).length ≤ rest.length := mapErase_length_le rest k
      simp only [mapErase, hpk, if_pos, List.length_cons]
      omega
    · simp only [mapLookup, hpk, if_neg, ite_false] at h
      have hlt := ih h
      simp only [mapErase, hpk, if_neg, ite_false, List.length_cons]
      omega

/-- Running counters of the cache, from SimpleCache.__init__
(yfinance_proxy.py lines 104-109). -/
structure CacheStats where
  hits : Nat
  misses : Nat
  entries : Nat
  evictions : Nat
deriving DecidableEq, Repr

/-- In-memory cache with TTL support, from the SimpleCache class of
yfinance_proxy.py.  The per-key lock table is modelled separately (see
LockTable below): under the per-key mutual exclusion the lock table has
no effect on the cache contents or the stats. -/
structure SimpleCache (K V : Type) where
  cache : List (K × V × Nat)
  default_ttl : Nat
  stats : CacheStats
deriving DecidableEq, Repr

/-- SimpleCache.__init__ with an empty dictionary and zeroed stats. -/
def SimpleCache.empty (default_ttl : Nat) : SimpleCache K V :=
  ⟨[], default_ttl, ⟨0, 0, 0, 0⟩⟩

/-- SimpleCache.get (yfinance_proxy.py lines 111-134): on a live entry
increment hits and return the value; on an expired entry delete it,
increment evictions, then fall through to the miss path (increment
misses, return the caller-supplied default); on an absent key increment
misses and return the default. -/
def SimpleCache.get [DecidableEq K] (c : SimpleCache K V) (key : K) (default : Option V)
    (now : Nat) : SimpleCache K V × Option V :=
  match mapLookup c.cache key with
  | some (v, expiry) =>
    if now < expiry then
      ({ c with stats := { c.stats with hits := c.stats.hits + 1 } }, some v)
    else
      ({ c with cache := mapErase c.cache key,
                stats := { c.stats with evictions := c.stats.evictions + 1,
                                        misses := c.stats.misses + 1 } }, default)
  | none => ({ c with stats := { c.stats with misses := c.stats.misses + 1 } }, default)

/-- SimpleCache.set (yfinance_proxy.py lines 136-153): expiry is
now + ttl (default_ttl when ttl is None); entries is incremented only
when the key was absent; the binding is stored unconditionally. -/
def SimpleCache.set [DecidableEq K] (c : SimpleCache K V) (key : K) (value : V)
    (ttl : Option Nat) (now : Nat) : SimpleCache K V :=
  let t := ttl.getD c.default_ttl
  let expiry := now + t
  let entries1 :=
    match mapLookup c.cache key with
    | none => c.stats.entries + 1
    | some _ => c.stats.entries
  { c with cache := mapInsert c.cache key (value, expiry),
           stats := { c.stats with entries := entries1 } }

/-- SimpleCache.delete (yfinance_proxy.py lines 155-159): removes the
binding when present; no stats field is touched. -/
def SimpleCache.delete [DecidableEq K] (c : SimpleCache K V) (key : K) : SimpleCache K V :=
  { c with cache := mapErase c.cache key }

/-- SimpleCache.clear (yfinance_proxy.py lines 161-168): removes every
binding and resets entries to 0; hits, misses and evictions are kept. -/
def SimpleCache.clear (c : SimpleCache K V) : SimpleCache K V :=
  { c with cache := [], stats := { c.stats with entries := 0 } }

/-- One cache operation, for reasoning about operation sequences. -/
inductive CacheOp (K V : Type) where
  | opGet (k : K) (d : Option V) (now : Nat)
  | opSet (k : K) (v : V) (ttl : Option Nat) (now : Nat)
  | opDelete (k : K)
  | opClear
deriving DecidableEq, Repr

/-- Apply one cache operation, discarding the value returned by get. -/
def SimpleCache.applyOp [DecidableEq K] (c : SimpleCache K V) : CacheOp K V → SimpleCache K V
  | .opGet k d now => (c.get k d now).1
  | .opSet k v ttl now => c.set k v ttl now
  | .opDelete k => c.delete k
  | .opClear => c.clear

/-- Run a sequence of cache operations from a fresh cache. -/
def SimpleCache.run [DecidableEq K] (default_ttl : Nat) (ops : List (CacheOp K V)) :
    SimpleCache K V :=
  ops.foldl SimpleCache.applyOp (SimpleCache.empty default_ttl)

/-- Per-key lock table, from SimpleCache.__init__ line 103:
locks = defaultdict(threading.RLock).  The first access under a key
allocates a fresh lock; later accesses under the same key return the
same lock.  Locks are identified by the order of their allocation. -/
structure LockTable (K : Type) where
  locks : List (K × Nat)
  nextId : Nat
deriving DecidableEq, Repr

/-- The lock table of a freshly constructed SimpleCache. -/
def LockTable.empty : LockTable K :=
  ⟨[], 0⟩

/-- Access locks[key] on a defaultdict: return the existing lock, or
allocate a fresh one and remember it. -/
def LockTable.acquire [DecidableEq K] (t : LockTable K) (k : K) : LockTable K × Nat :=
  match mapLookup t.locks k with
  | some i => (t, i)
  | none => (⟨mapInsert t.locks k t.nextId, t.nextId + 1⟩, t.nextId)

/-- Well-formedness of a lock table: every allocated lock identifier is
below the allocation counter, and distinct keys hold distinct locks. -/
def LockInv [DecidableEq K] (t : LockTable K) : Prop :=
  (∀ k i, mapLookup t.locks k = some i → i < t.nextId) ∧
  (∀ k1 k2 i, k1 ≠ k2 → mapLookup t.locks k1 = some i →
    mapLookup t.locks k2 = some i → False)

theorem lockInv_empty [DecidableEq K] : LockInv (LockTable.empty : LockTable K) := by
  constructor
  · intro k i h
    simp [LockTable.empty, mapLookup] at h
  · intro k1 k2 i hne h1 h2
    simp [LockTable.empty, mapLookup] at h1

theorem mapLookup_insert_ne [DecidableEq K] (l : List (K × V)) (k k1 : K) (v : V)
    (h : k1 ≠ k) : mapLookup (mapInsert l k v) k1 = mapLookup l k1 := by
  rw [mapInsert, mapLookup, if_neg (fun hc => h hc.symm), mapLookup_erase_ne l k k1 h]

theorem lockInv_mk_insert [DecidableEq K] (t : LockTable K) (k : K)
    (h : LockInv t) :
    LockInv (⟨mapInsert t.locks k t.nextId, t.nextId + 1⟩ : LockTable K) := by
  obtain ⟨hbound, hinj⟩ := h
  constructor
  · intro k2 i h2
    have h2x : mapLookup (mapInsert t.locks k t.nextId) k2 = some i := h2
    show i < t.nextId + 1
    by_cases hk : k2 = k
    · subst hk
      rw [mapLookup_insert_self] at h2x
      have : t.nextId = i := Option.some.inj h2x
      omega
    · rw [mapLookup_insert_ne t.locks k k2 t.nextId hk] at h2x
      have := hbound k2 i h2x
      omega
  · intro k1 k2 i hne h1 h2
    have h1x : mapLookup (mapInsert t.locks k t.nextId) k1 = some i := h1
    have h2x : mapLookup (mapInsert t.locks k t.nextId) k2 = some i := h2
    by_cases hk1 : k1 = k <;> by_cases hk2 : k2 = k
    · exact hne (hk1.trans hk2.symm)
    · subst hk1
      rw [mapLookup_insert_self] at h1x
      rw [mapLookup_insert_ne t.locks k1 k2 t.nextId hk2] at h2x
      have hi : t.nextId = i := Option.some.inj h1x
      have := hbound k2 i h2x
      omega
    · subst hk2
      rw [mapLookup_insert_self] at h2x
      rw [mapLookup_insert_ne t.locks k2 k1 t.nextId hk1] at h1x
      have hi : t.nextId = i := Option.some.inj h2x
      have := hbound k1 i h1x
      omega
    · rw [mapLookup_insert_ne t.locks k k1 t.nextId hk1] at h1x
      rw [mapLookup_insert_ne t.locks k k2 t.nextId hk2] at h2x
      exact hinj k1 k2 i hne h1x h2x

theorem lockInv_acquire [DecidableEq K] (t : LockTable K) (k : K) (h : LockInv t) :
    LockInv (t.acquire k).1 := by
  cases hl : mapLookup t.locks k with
  | some i =>
    have hacq : (t.acquire k).1 = t := by simp [LockTable.acquire, hl]
    rw [hacq]
    exact h
  | none =>
    have hacq : (t.acquire k).1 =
        (⟨mapInsert t.locks k t.nextId, t.nextId + 1⟩ : LockTable K) := by
      simp [LockTable.acquire, hl]
    rw [hacq]
    exact lockInv_mk_insert t k h

/-- Circuit breaker states, spec section 4.3. -/
inductive CBState where
  | closed
  | opened
  | halfOpen
deriving DecidableEq, Repr

/-- Modelled from the spec: the CircuitBreaker class is missing from the
sources (yfinance_proxy.py line 86 reads "Removed CircuitBreaker class",
and no other file defines one); this state follows the data model of
spec section 3 (CircuitBreaker state) and the configuration of
section 4.3. -/
structure CircuitBreaker where
  failure_threshold : Nat
  recovery_timeout : Nat
  max_half_open_trials : Nat
  state : CBState
  failure_count : Nat
  last_failure_at : Option Nat
  half_open_trial_count : Nat
deriving DecidableEq, Repr

/-- A fresh breaker in the initial Closed state, spec section 4.3. -/
def CircuitBreaker.init (failure_threshold recovery_timeout max_half_open_trials : Nat) :
    CircuitBreaker :=
  ⟨failure_threshold, recovery_timeout, max_half_open_trials, .closed, 0, none, 0⟩

/-- Outcome of one guarded call: the wrapped operation returned, the
wrapped operation failed, or the breaker rejected the call with the
distinct circuit-open error. -/
inductive CallOutcome (E R : Type) where
  | success (r : R)
  | failure (e : E)
  | circuitOpen
deriving DecidableEq, Repr

/-- Modelled from the spec: CircuitBreaker.call of spec section 4.3.
The wrapped operation is passed as its outcome (an Except value) and
the result records the new breaker, the call outcome, and whether the
wrapped operation was invoked.  Closed: invoke; success resets
failure_count, failure increments it, stamps last_failure_at, and opens
the breaker once failure_threshold is reached.  Open: reject without
invoking unless recovery_timeout has elapsed since last_failure_at, in
which case the call runs as the first Half-Open trial.  Half-Open:
reject when the trial cap is reached; otherwise invoke, closing on
success and re-opening on failure. -/
def CircuitBreaker.call (cb : CircuitBreaker) (op : Except E R) (now : Nat) :
    CircuitBreaker × CallOutcome E R × Bool :=
  match cb.state with
  | .closed =>
    match op with
    | .ok r => ({ cb with failure_count := 0 }, .success r, true)
    | .error e =>
      let fc := cb.failure_count + 1
      let st := if cb.failure_threshold ≤ fc then CBState.opened else CBState.closed
      ({ cb with failure_count := fc, last_failure_at := some now, state := st },
       .failure e, true)
  | .opened =>
    if cb.recovery_timeout ≤ now - (cb.last_failure_at.getD 0) then
      match op with
      | .ok r =>
        ({ cb with state := .closed, failure_count := 0, half_open_trial_count := 1 },
         .success r, true)
      | .error e =>
        ({ cb with state := .opened, last_failure_at := some now,
                   half_open_trial_count := 1 },
         .failure e, true)
    else
      (cb, .circuitOpen, false)
  | .halfOpen =>
    if cb.max_half_open_trials ≤ cb.half_open_trial_count then
      (cb, .circuitOpen, false)
    else
      match op with
      | .ok r =>
        ({ cb with state := .closed, failure_count := 0,
                   half_open_trial_count := cb.half_open_trial_count + 1 },
         .success r, true)
      | .error e =>
        ({ cb with state := .opened, last_failure_at := some now,
                   half_open_trial_count := cb.half_open_trial_count + 1 },
         .failure e, true)

/-- Modelled from the spec: RetryPolicy configuration of spec
section 3; retry_with_backoff is missing from the sources
(yfinance_proxy.py line 184 reads "Removed retry_with_backoff
decorator"). -/
structure RetryPolicy where
  max_retries : Nat
  initial_backoff : Nat
  multiplier : Nat
  max_backoff : Nat
  jitter_fraction : Nat
deriving DecidableEq, Repr

/-- Modelled from the spec: the un-jittered backoff before a retry,
min(max_backoff, initial_backoff * multiplier ^ (attempt - 1)) from
spec section 4.2. -/
def RetryPolicy.backoff (p : RetryPolicy) (attempt : Nat) : Nat :=
  min p.max_backoff (p.initial_backoff * p.multiplier ^ (attempt - 1))

/-- Modelled from the spec: the retry loop of spec section 4.2.  The
operation is a function from the 0-based attempt index to its outcome
on that attempt.  Returns the final outcome together with the number of
invocations performed.  On failure with no retries remaining, the error
of the last attempt is propagated untouched. -/
def retryGo (op : Nat → Except E R) : Nat → Nat → Except E R × Nat
  | remaining, attempt =>
    match op attempt with
    | .ok r => (.ok r, 1)
    | .error e =>
      match remaining with
      | 0 => (.error e, 1)
      | n + 1 =>
        let rec1 := retryGo op n (attempt + 1)
        (rec1.1, rec1.2 + 1)

/-- Modelled from the spec: RetryPolicy.wrap, spec section 4.2; the
first attempt has index 0 and up to max_retries further attempts
follow. -/
def RetryPolicy.wrap (p : RetryPolicy) (op : Nat → Except E R) : Except E R × Nat :=
  retryGo op p.max_retries 0

/-- Health status values, from the HealthStatus str-enum defined both in
health/client.py (lines 14-20) and browser-scraper/src/health_monitor.py
(lines 17-23). -/
inductive HealthStatus where
  | healthy
  | degraded
  | failed
  | limited
  | unknown
deriving DecidableEq, Repr

/-- The string value of a HealthStatus member; the Python enum derives
from str, so all comparisons in the sources are string comparisons. -/
def HealthStatus.str : HealthStatus → String
  | .healthy => "healthy"
  | .degraded => "degraded"
  | .failed => "failed"
  | .limited => "limited"
  | .unknown => "unknown"

/-- One row of the data_source_health table for a fixed
(source_type, source_name) key, with the columns touched by
HealthMonitor.update_health_status. -/
structure HealthRow where
  status : String
  last_check : Nat
  updated_at : Nat
  error_message : Option String
  response_time_ms : Option Nat
  metadata : Option String
  error_count : Nat
  last_success : Option Nat
deriving DecidableEq, Repr

/-- The UPDATE branch of HealthMonitor.update_health_status
(health_monitor.py lines 87-113): status, last_check, updated_at,
error_message, response_time_ms and metadata are overwritten;
error_count is incremented when the status string is failed or error;
the SQL CASE sets last_success to now when the status string is
healthy, degraded or limited and keeps the stored value otherwise. -/
def updateExistingRow (row : HealthRow) (status : HealthStatus)
    (error_message : Option String) (response_time_ms : Option Nat)
    (metadata : Option String) (now : Nat) : HealthRow :=
  let ec :=
    if status.str = "failed" ∨ status.str = "error" then row.error_count + 1
    else row.error_count
  { status := status.str
    last_check := now
    updated_at := now
    error_message := error_message
    response_time_ms := response_time_ms
    metadata := metadata
    error_count := ec
    last_success :=
      if status.str = "healthy" ∨ status.str = "degraded" ∨ status.str = "limited"
      then some now else row.last_success }

/-- The INSERT branch of HealthMonitor.update_health_status
(health_monitor.py lines 114-128): a fresh row whose error_count and
last_success take the table defaults (0 and NULL), since the INSERT
names neither column. -/
def insertNewRow (status : HealthStatus) (error_message : Option String)
    (response_time_ms : Option Nat) (metadata : Option String) (now : Nat) : HealthRow :=
  { status := status.str
    last_check := now
    updated_at := now
    error_message := error_message
    response_time_ms := response_time_ms
    metadata := metadata
    error_count := 0
    last_success := none }

/-- HealthMonitor.update_health_status (health_monitor.py lines 55-138)
acting on the row stored for the monitor's (source_type, source_name)
key.  hasConn is whether __init__ obtained a database connection
(lines 64-66 return early without it); writeFails injects a raise from
the database work inside the try block, in which case the except
handler rolls the transaction back, so the committed row is unchanged,
and the function returns normally (lines 133-138). -/
def update_health_status (hasConn : Bool) (db : Option HealthRow) (writeFails : Bool)
    (status : HealthStatus) (error_message : Option String)
    (response_time_ms : Option Nat) (metadata : Option String) (now : Nat) :
    Option HealthRow :=
  if hasConn = false then db
  else if writeFails then db
  else
    match db with
    | some row => some (updateExistingRow row status error_message response_time_ms
        metadata now)
    | none => some (insertNewRow status error_message response_time_ms metadata now)

/-- HealthClient.report_health (health/client.py lines 37-82).  The
outcome of the HTTP POST is an explicit input: none models a raise from
session.post (caught by the except handler, which returns False), and
some code models a response with that status code; the report is
accepted only for codes 200 and 202. -/
def report_health (source_type source_name : String) (status : HealthStatus)
    (httpResult : Option Nat) : Bool :=
  match httpResult with
  | none => false
  | some code => code == 200 || code == 202

/-- The mutable health_check_status dictionary of yfinance_proxy.py
(lines 313-318) and economic_proxy.py, as updated by heartbeat_check. -/
structure HeartbeatState where
  status : String
  is_healthy : Bool
  consecutive_failures : Nat
  last_check : Nat
deriving DecidableEq, Repr

/-- What one heartbeat iteration produced: the new health_check_status,
the status reported to the health client (none when no client is
configured), and whether the next check was scheduled. -/
structure HeartbeatOutcome where
  state : HeartbeatState
  reported : Option HealthStatus
  rescheduled : Bool
deriving DecidableEq, Repr

/-- heartbeat_check (yfinance_proxy.py lines 374-419; economic_proxy.py
lines 812-857 is line-for-line the same shape).  The canary call is
passed as its outcome; a raise is caught by the except clause, which
increments consecutive_failures, marks the proxy unhealthy, and reports
Failed through report_health (itself total, see report_health).  Both
branches then fall through to the last_check stamp and the
threading.Timer rescheduling, so the function always returns normally
with rescheduled set; an uncaught raise would surface as an
Except.error here. -/
def heartbeat_check (canary : Except String Unit) (health_on : Bool)
    (st : HeartbeatState) (now : Nat) : Except String HeartbeatOutcome :=
  match canary with
  | .ok _ =>
    let st1 := { st with status := "ok", is_healthy := true, consecutive_failures := 0 }
    let rep := if health_on then some HealthStatus.healthy else none
    .ok { state := { st1 with last_check := now }, reported := rep, rescheduled := true }
  | .error _ =>
    let st1 := { st with consecutive_failures := st.consecutive_failures + 1,
                         status := "failed", is_healthy := false }
    let rep := if health_on then some HealthStatus.failed else none
    .ok { state := { st1 with last_check := now }, reported := rep, rescheduled := true }

/-- The request_stats dictionary of StockDataProvider.__init__
(yfinance_proxy.py lines 192-198), with the counters the claims
mention. -/
structure RequestStats where
  total_requests : Nat
  successful_requests : Nat
  failed_requests : Nat
  api_calls : Nat
deriving DecidableEq, Repr

/-- StockDataProvider (yfinance_proxy.py lines 187-306): a SimpleCache
over string keys plus request counters.  Q is the opaque type of the
formatted quote payloads. -/
structure StockDataProvider (Q : Type) where
  cache : SimpleCache String Q
  stats : RequestStats
deriving DecidableEq, Repr

/-- StockDataProvider._fetch_and_cache_data (yfinance_proxy.py lines
214-246), reachable through get_market_data: bump total_requests, try
the cache under "cache_type:symbol", and on a miss invoke the upstream
fetch (api_calls is incremented before the fetch can raise), cache a
successful result under the default TTL, and bump
successful_requests. -/
def StockDataProvider.fetch_and_cache (p : StockDataProvider Q) (symbol cache_type : String)
    (upstream : Except String Q) (now : Nat) : StockDataProvider Q × Except String Q :=
  let p1 := { p with stats := { p.stats with total_requests := p.stats.total_requests + 1 } }
  let key := cache_type ++ ":" ++ symbol
  let gotten := p1.cache.get key none now
  let p2 := { p1 with cache := gotten.1 }
  match gotten.2 with
  | some v => (p2, .ok v)
  | none =>
    let p3 := { p2 with stats := { p2.stats with api_calls := p2.stats.api_calls + 1 } }
    match upstream with
    | .error e => (p3, .error e)
    | .ok info =>
      let c2 := p3.cache.set key info none now
      ({ p3 with cache := c2,
                 stats := { p3.stats with
                   successful_requests := p3.stats.successful_requests + 1 } },
       .ok info)

/-- StockDataProvider.get_stock_quote (yfinance_proxy.py lines
248-273): its first statement raises
RuntimeError("Intentionally breaking the API scraper to test badge
failure status"), so the cache lookup and the upstream fetch that
follow are dead code and the provider state is returned untouched.  The
now and upstream arguments are exactly the inputs the dead tail would
have consumed. -/
def StockDataProvider.get_stock_quote (p : StockDataProvider Q) (symbol : String)
    (now : Nat) (upstream : Except String Q) : StockDataProvider Q × Except String Q :=
  (p, .error "Intentionally breaking the API scraper to test badge failure status")

theorem simpleCache_applyOp_entries_le [DecidableEq K] (c : SimpleCache K V)
    (op : CacheOp K V) (h : c.cache.length ≤ c.stats.entries) :
    (c.applyOp op).cache.length ≤ (c.applyOp op).stats.entries := by
  cases op with
  | opGet k d now =>
    cases hl : mapLookup c.cache k with
    | none => simpa [SimpleCache.applyOp, SimpleCache.get, hl] using h
    | some p =>
      obtain ⟨v, e⟩ := p
      by_cases ht : now < e
      · simpa [SimpleCache.applyOp, SimpleCache.get, hl, ht] using h
      · have hle := mapErase_length_le c.cache k
        simp only [SimpleCache.applyOp, SimpleCache.get, hl, ht, if_false, ite_false]
        omega
  | opSet k v ttl now =>
    have hcache : (c.set k v ttl now).cache.length = (mapErase c.cache k).length + 1 := by
      simp [SimpleCache.set, mapInsert]
    cases hl : mapLookup c.cache k with
    | none =>
      have hle := mapErase_length_le c.cache k
      have hent : (c.set k v ttl now).stats.entries = c.stats.entries + 1 := by
        simp [SimpleCache.set, hl]
      simp only [SimpleCache.applyOp]
      omega
    | some p =>
      have hlt := mapErase_length_lt c.cache k p hl
      have hent : (c.set k v ttl now).stats.entries = c.stats.entries := by
        simp [SimpleCache.set, hl]
      simp only [SimpleCache.applyOp]
      omega
  | opDelete k =>
    have hle := mapErase_length_le c.cache k
    simp only [SimpleCache.applyOp, SimpleCache.delete]
    omega
  | opClear =>
    simp [SimpleCache.applyOp, SimpleCache.clear]

theorem simpleCache_applyOp_mono [DecidableEq K] (c : SimpleCache K V) (op : CacheOp K V) :
    c.stats.hits ≤ (c.applyOp op).stats.hits ∧
    c.stats.misses ≤ (c.applyOp op).stats.misses ∧
    c.stats.evictions ≤ (c.applyOp op).stats.evictions := by
  cases op with
  | opGet k d now =>
    cases hl : mapLookup c.cache k with
    | none =>
      simp only [SimpleCache.applyOp, SimpleCache.get, hl]
      omega
    | some p =>
      obtain ⟨v, e⟩ := p
      by_cases ht : now < e <;>
        simp only [SimpleCache.applyOp, SimpleCache.get, hl, ht, if_true, if_false,
          ite_true, ite_false] <;> omega
  | opSet k v ttl now =>
    cases hl : mapLookup c.cache k <;>
      simp only [SimpleCache.applyOp, SimpleCache.set, hl] <;> omega
  | opDelete k =>
    simp only [SimpleCache.applyOp, SimpleCache.delete]
    omega
  | opClear =>
    simp only [SimpleCache.applyOp, SimpleCache.clear]
    omega

theorem simpleCache_run_entries_le [DecidableEq K] (dttl : Nat) (ops : List (CacheOp K V)) :
    (SimpleCache.run dttl ops).cache.length ≤ (SimpleCache.run dttl ops).stats.entries := by
  have haux : ∀ (l : List (CacheOp K V)) (c : SimpleCache K V),
      c.cache.length ≤ c.stats.entries →
      (l.foldl SimpleCache.applyOp c).cache.length ≤
        (l.foldl SimpleCache.applyOp c).stats.entries := by
    intro l
    induction l with
    | nil => intro c hc; exact hc
    | cons op rest ih =>
      intro c hc
      exact ih (c.applyOp op) (simpleCache_applyOp_entries_le c op hc)
  exact haux ops (SimpleCache.empty dttl) (Nat.le_refl 0)

/-- Claim C1: for every key present in the cache whose expiry timestamp
is not in the future, SimpleCache.get returns the caller-supplied
default (the MISS value), removes the entry, increments evictions and
misses by exactly one each, and leaves hits unchanged (the stored value
is never returned as a hit). -/
theorem simpleCache_get_expired_evicts [DecidableEq K] (c : SimpleCache K V) (k : K)
    (d : Option V) (now : Nat) (v : V) (e1 : Nat)
    (hfound : mapLookup c.cache k = some (v, e1)) (hexp : e1 ≤ now) :
    (c.get k d now).2 = d ∧
    mapLookup (c.get k d now).1.cache k = none ∧
    (c.get k d now).1.stats.evictions = c.stats.evictions + 1 ∧
    (c.get k d now).1.stats.misses = c.stats.misses + 1 ∧
    (c.get k d now).1.stats.hits = c.stats.hits := by
  have hnl : ¬ now < e1 := Nat.not_lt.mpr hexp
  simp [SimpleCache.get, hfound, hnl, mapLookup_erase_self]

/-- Witness for C1 on a concrete cache: key 1 was set at time 0 with
ttl 5, and is read at time 10. -/
theorem simpleCache_get_expired_evicts_witness :
    mapLookup ((SimpleCache.empty 300 : SimpleCache Nat Nat).set 1 42 (some 5) 0).cache 1 =
      some (42, 5) ∧ 5 ≤ 10 ∧
    ((((SimpleCache.empty 300 : SimpleCache Nat Nat).set 1 42 (some 5) 0).get 1 none 10).2 = none ∧
     mapLookup ((((SimpleCache.empty 300 : SimpleCache Nat Nat).set 1 42 (some 5) 0).get 1 none 10).1).cache 1 = none ∧
     ((((SimpleCache.empty 300 : SimpleCache Nat Nat).set 1 42 (some 5) 0).get 1 none 10).1).stats.evictions =
       ((SimpleCache.empty 300 : SimpleCache Nat Nat).set 1 42 (some 5) 0).stats.evictions + 1 ∧
     ((((SimpleCache.empty 300 : SimpleCache Nat Nat).set 1 42 (some 5) 0).get 1 none 10).1).stats.misses =
       ((SimpleCache.empty 300 : SimpleCache Nat Nat).set 1 42 (some 5) 0).stats.misses + 1 ∧
     ((((SimpleCache.empty 300 : SimpleCache Nat Nat).set 1 42 (some 5) 0).get 1 none 10).1).stats.hits =
       ((SimpleCache.empty 300 : SimpleCache Nat Nat).set 1 42 (some 5) 0).stats.hits) :=
  ⟨by decide, by decide,
   simpleCache_get_expired_evicts ((SimpleCache.empty 300).set 1 42 (some 5) 0) 1 none 10 42 5
     (by decide) (by decide)⟩

/-- Claim C5 as stated is false: after set on a fresh key followed by
delete of that key, the entries counter still reads 1 while the cache
holds 0 keys — delete does not decrement entries (and neither does
eviction inside get, see SimpleCache.delete and SimpleCache.get). -/
theorem simpleCache_entries_counterexample :
    (SimpleCache.run 300 [CacheOp.opSet 1 7 none 0, CacheOp.opDelete 1] :
      SimpleCache Nat Nat).stats.entries = 1 ∧
    (SimpleCache.run 300 [CacheOp.opSet 1 7 none 0, CacheOp.opDelete 1] :
      SimpleCache Nat Nat).cache.length = 0 := by
  decide

/-- Claim C5 (amended): after every finite sequence of SimpleCache
operations the entries counter is an upper bound of (not equal to) the
number of keys currently stored; set on an absent key increments it by
one, set on a present key leaves it unchanged, delete and
expiry-driven eviction inside get leave it unchanged, clear resets it
to 0; hits, misses and evictions are monotonically non-decreasing under
every operation. -/
theorem simpleCache_entries_upper_bound [DecidableEq K] (dttl : Nat)
    (ops : List (CacheOp K V)) :
    ((SimpleCache.run dttl ops).cache.length ≤ (SimpleCache.run dttl ops).stats.entries) ∧
    (∀ (c : SimpleCache K V) (op : CacheOp K V),
      c.stats.hits ≤ (c.applyOp op).stats.hits ∧
      c.stats.misses ≤ (c.applyOp op).stats.misses ∧
      c.stats.evictions ≤ (c.applyOp op).stats.evictions) ∧
    (∀ (c : SimpleCache K V) (k : K) (v : V) (ttl : Option Nat) (now : Nat),
      (c.set k v ttl now).stats.entries =
        (match mapLookup c.cache k with
         | none => c.stats.entries + 1
         | some _ => c.stats.entries)) ∧
    (∀ (c : SimpleCache K V) (k : K), (c.delete k).stats.entries = c.stats.entries) ∧
    (∀ (c : SimpleCache K V) (k : K) (d : Option V) (now : Nat),
      ((c.get k d now).1).stats.entries = c.stats.entries) ∧
    (∀ c : SimpleCache K V, c.clear.stats.entries = 0) := by
  refine ⟨simpleCache_run_entries_le dttl ops, simpleCache_applyOp_mono, ?_, ?_, ?_, ?_⟩
  · intro c k v ttl now
    cases hl : mapLookup c.cache k <;> simp [SimpleCache.set, hl]
  · intro c k
    rfl
  · intro c k d now
    cases hl : mapLookup c.cache k with
    | none => simp [SimpleCache.get, hl]
    | some p =>
      obtain ⟨v, e⟩ := p
      by_cases ht : now < e <;> simp [SimpleCache.get, hl, ht]
  · intro c
    rfl

/-- Claim C7 as stated is false: set accepts ttl = 0, and a set with
ttl 0 followed immediately by get at the very same clock reading
returns the MISS default, not the stored value, because the entry
expires at the instant it is written. -/
theorem simpleCache_set_get_zero_ttl_cex :
    ((((SimpleCache.empty 300 : SimpleCache Nat Nat).set 1 7 (some 0) 5).get 1 none 5).2 = none) ∧
    ((((SimpleCache.empty 300 : SimpleCache Nat Nat).set 1 7 (some 0) 5).get 1 none 5).2 ≠ some 7) := by
  decide

/-- Claim C7 (amended): for every key, value and ttl whose effective
value (the explicit ttl, or default_ttl when None is passed) is
positive, set followed immediately by get at the same clock reading
returns the stored value, never MISS. -/
theorem simpleCache_set_then_get_hits [DecidableEq K] (c : SimpleCache K V) (k : K)
    (v : V) (ttl : Option Nat) (d : Option V) (now : Nat)
    (hpos : 0 < ttl.getD c.default_ttl) :
    ((c.set k v ttl now).get k d now).2 = some v := by
  have hlk : mapLookup (c.set k v ttl now).cache k =
      some (v, now + ttl.getD c.default_ttl) := by
    simp [SimpleCache.set, mapLookup_insert_self]
  simp [SimpleCache.get, hlk, Nat.lt_add_of_pos_right hpos]

/-- Witness for the amended C7 on a concrete cache with ttl 10. -/
theorem simpleCache_set_then_get_hits_witness :
    0 < (some 10 : Option Nat).getD 300 ∧
    ((((SimpleCache.empty 300 : SimpleCache Nat Nat).set 1 7 (some 10) 5).get 1 none 5).2 = some 7) :=
  ⟨by decide,
   simpleCache_set_then_get_hits (SimpleCache.empty 300) 1 7 (some 10) none 5 (by decide)⟩

/-- Claim C2 (circuit breaker modelled from the spec): with
failure_threshold 3, three consecutive failing calls starting from
Closed leave the breaker Open, and a 4th call issued before
recovery_timeout has elapsed since the last failure yields the distinct
circuit-open outcome without invoking the wrapped operation. -/
theorem circuitBreaker_opens_after_three_failures {E R : Type} (e1 e2 e3 : E)
    (op4 : Except E R) (rt mh t1 t2 t3 t4 : Nat) (h4 : t4 - t3 < rt) :
    ((((CircuitBreaker.init 3 rt mh).call (Except.error e1 : Except E R) t1).1.call
        (Except.error e2 : Except E R) t2).1.call
        (Except.error e3 : Except E R) t3).1.state = CBState.opened ∧
    (((((CircuitBreaker.init 3 rt mh).call (Except.error e1 : Except E R) t1).1.call
        (Except.error e2 : Except E R) t2).1.call
        (Except.error e3 : Except E R) t3).1.call op4 t4).2.1 =
      CallOutcome.circuitOpen ∧
    (((((CircuitBreaker.init 3 rt mh).call (Except.error e1 : Except E R) t1).1.call
        (Except.error e2 : Except E R) t2).1.call
        (Except.error e3 : Except E R) t3).1.call op4 t4).2.2 = false := by
  have hcb3 : ((((CircuitBreaker.init 3 rt mh).call (Except.error e1 : Except E R) t1).1.call
      (Except.error e2 : Except E R) t2).1.call (Except.error e3 : Except E R) t3).1 =
      ⟨3, rt, mh, CBState.opened, 3, some t3, 0⟩ := by
    simp [CircuitBreaker.init, CircuitBreaker.call]
  rw [hcb3]
  have hrej : ¬ rt ≤ t4 - t3 := Nat.not_le.mpr h4
  refine ⟨rfl, ?_, ?_⟩ <;> simp [CircuitBreaker.call, hrej]

/-- Witness for C2: threshold 3, recovery timeout 30, failures at times
0, 1, 2 and a rejected call at time 3. -/
theorem circuitBreaker_opens_after_three_failures_witness :
    (3 : Nat) - 2 < 30 ∧
    (((((CircuitBreaker.init 3 30 1).call (Except.error 0 : Except Nat Nat) 0).1.call
        (Except.error 0 : Except Nat Nat) 1).1.call
        (Except.error 0 : Except Nat Nat) 2).1.state = CBState.opened ∧
     (((((CircuitBreaker.init 3 30 1).call (Except.error 0 : Except Nat Nat) 0).1.call
        (Except.error 0 : Except Nat Nat) 1).1.call
        (Except.error 0 : Except Nat Nat) 2).1.call
          (Except.error 0 : Except Nat Nat) 3).2.1 = CallOutcome.circuitOpen ∧
     (((((CircuitBreaker.init 3 30 1).call (Except.error 0 : Except Nat Nat) 0).1.call
        (Except.error 0 : Except Nat Nat) 1).1.call
        (Except.error 0 : Except Nat Nat) 2).1.call
          (Except.error 0 : Except Nat Nat) 3).2.2 = false) :=
  ⟨by decide,
   circuitBreaker_opens_after_three_failures 0 0 0 (Except.error 0) 30 1 0 1 2 3 (by decide)⟩

/-- Claim C3 (retry policy modelled from the spec): with max_retries 3
(initial_backoff 1, multiplier 2, max_backoff 10), an operation that
fails on every attempt is invoked exactly 4 times, and the error
finally propagated is exactly the error of the 4th attempt (attempt
index 3), not a substituted one. -/
theorem retryPolicy_exhausts_with_last_error {E R : Type} (errs : Nat → E) (jf : Nat) :
    (RetryPolicy.mk 3 1 2 10 jf).wrap (R := R) (fun i => Except.error (errs i)) =
      (Except.error (errs 3), 4) := by
  rfl

/-- Claim C4: updating the health row for an existing
(source_type, source_name) key sets last_check to now regardless of
status; sets last_success to now exactly when the status is Healthy,
Degraded or Limited and keeps it otherwise; increments error_count by
one exactly when the status is Failed; and two consecutive Healthy
reports stamp last_check both times while leaving error_count
unchanged. -/
theorem healthMonitor_upsert_existing_row (row : HealthRow) (status : HealthStatus)
    (em em2 : Option String) (rt rt2 : Option Nat) (md md2 : Option String)
    (now now2 : Nat) :
    (updateExistingRow row status em rt md now).last_check = now ∧
    (updateExistingRow row status em rt md now).last_success =
      (if status = HealthStatus.healthy ∨ status = HealthStatus.degraded ∨
          status = HealthStatus.limited then some now else row.last_success) ∧
    (updateExistingRow row status em rt md now).error_count =
      (if status = HealthStatus.failed then row.error_count + 1 else row.error_count) ∧
    update_health_status true (some row) false status em rt md now =
      some (updateExistingRow row status em rt md now) ∧
    (updateExistingRow row HealthStatus.healthy em rt md now).last_check = now ∧
    (updateExistingRow (updateExistingRow row HealthStatus.healthy em rt md now)
        HealthStatus.healthy em2 rt2 md2 now2).last_check = now2 ∧
    (updateExistingRow (updateExistingRow row HealthStatus.healthy em rt md now)
        HealthStatus.healthy em2 rt2 md2 now2).error_count = row.error_count := by
  cases status <;>
    simp [updateExistingRow, update_health_status, HealthStatus.str]

/-- Claim C6: get_stock_quote raises unconditionally before consulting
the cache or the upstream (the provider state comes back untouched and
the result is the fixed RuntimeError message), and a heartbeat whose
canary is that call always takes the failure branch: it reports Failed,
marks the proxy unhealthy and increments the consecutive-failure
count. -/
theorem get_stock_quote_unconditional_failure {Q : Type} (p : StockDataProvider Q)
    (symbol : String) (now : Nat) (upstream : Except String Q)
    (st : HeartbeatState) (now2 : Nat) :
    p.get_stock_quote symbol now upstream =
      (p, Except.error "Intentionally breaking the API scraper to test badge failure status") ∧
    ∃ o : HeartbeatOutcome,
      heartbeat_check ((p.get_stock_quote "AAPL" now upstream).2.map (fun _ => Unit.unit))
          true st now2 = Except.ok o ∧
      o.reported = some HealthStatus.failed ∧
      o.state.is_healthy = false ∧
      o.state.status = "failed" ∧
      o.state.consecutive_failures = st.consecutive_failures + 1 ∧
      o.rescheduled = true := by
  exact ⟨rfl, ⟨_, rfl, rfl, rfl, rfl, rfl, rfl⟩⟩

/-- Claim C8: every heartbeat iteration, whether the canary call
succeeds or raises, returns normally (Except.ok, never Except.error)
and reaches the rescheduling step. -/
theorem heartbeat_always_reschedules (canary : Except String Unit) (health_on : Bool)
    (st : HeartbeatState) (now : Nat) :
    ∃ o : HeartbeatOutcome,
      heartbeat_check canary health_on st now = Except.ok o ∧ o.rescheduled = true := by
  cases canary <;> exact ⟨_, rfl, rfl⟩

/-- Claim C9: a failing health-store write is absorbed at the reporting
boundary: update_health_status with a raising database write returns
normally with the stored row unchanged, and report_health returns false
(instead of raising) both when the HTTP post raises and when the
response status is not one of the accepted codes 200 and 202. -/
theorem health_write_failures_absorbed (hasConn : Bool) (db : Option HealthRow)
    (status : HealthStatus) (em : Option String) (rt : Option Nat) (md : Option String)
    (now : Nat) (s t : String) (st2 : HealthStatus) (code : Nat)
    (h200 : code ≠ 200) (h202 : code ≠ 202) :
    update_health_status hasConn db true status em rt md now = db ∧
    report_health s t st2 none = false ∧
    report_health s t st2 (some code) = false := by
  refine ⟨?_, rfl, ?_⟩
  · cases hasConn <;> simp [update_health_status]
  · simp [report_health, h200, h202]

/-- Witness for C9 on a concrete row, with the HTTP post answering
status 500. -/
theorem health_write_failures_absorbed_witness :
    (500 : Nat) ≠ 200 ∧ (500 : Nat) ≠ 202 ∧
    (update_health_status true (some (insertNewRow HealthStatus.healthy none none none 0))
        true HealthStatus.failed none none none 5 =
      some (insertNewRow HealthStatus.healthy none none none 0) ∧
     report_health "api-scraper" "yahoo_finance_proxy" HealthStatus.failed none = false ∧
     report_health "api-scraper" "yahoo_finance_proxy" HealthStatus.failed (some 500) = false) :=
  ⟨by decide, by decide,
   health_write_failures_absorbed true (some (insertNewRow HealthStatus.healthy none none none 0))
     HealthStatus.failed none none none 5 "api-scraper" "yahoo_finance_proxy"
     HealthStatus.failed 500 (by decide) (by decide)⟩

/-- Claim C10: locking is per key: on any well-formed lock table
(every table reachable from a fresh cache is, by lockInv_empty and
lockInv_acquire), accessing the locks of two distinct keys yields two
distinct locks, so operations on different keys contend on different
locks and never block each other. -/
theorem lockTable_distinct_locks {K : Type} [DecidableEq K] (t : LockTable K)
    (h : LockInv t) (k1 k2 : K) (hne : k1 ≠ k2) :
    (t.acquire k1).2 ≠ ((t.acquire k1).1.acquire k2).2 := by
  cases h1 : mapLookup t.locks k1 with
  | some i1 =>
    have ha1 : t.acquire k1 = (t, i1) := by simp [LockTable.acquire, h1]
    rw [ha1]
    cases h2 : mapLookup t.locks k2 with
    | some i2 =>
      have ha2 : t.acquire k2 = (t, i2) := by simp [LockTable.acquire, h2]
      rw [ha2]
      intro hc
      exact h.2 k1 k2 i1 hne h1 (by rw [h2]; exact congrArg some hc.symm)
    | none =>
      have ha2 : t.acquire k2 =
          (⟨mapInsert t.locks k2 t.nextId, t.nextId + 1⟩, t.nextId) := by
        simp [LockTable.acquire, h2]
      rw [ha2]
      have hb := h.1 k1 i1 h1
      omega
  | none =>
    have ha1 : t.acquire k1 =
        (⟨mapInsert t.locks k1 t.nextId, t.nextId + 1⟩, t.nextId) := by
      simp [LockTable.acquire, h1]
    rw [ha1]
    have hlk2 : mapLookup (mapInsert t.locks k1 t.nextId) k2 = mapLookup t.locks k2 :=
      mapLookup_insert_ne t.locks k1 k2 t.nextId (fun hc => hne hc.symm)
    cases h2 : mapLookup t.locks k2 with
    | some i2 =>
      have ha2 : (⟨mapInsert t.locks k1 t.nextId, t.nextId + 1⟩ : LockTable K).acquire k2 =
          (⟨mapInsert t.locks k1 t.nextId, t.nextId + 1⟩, i2) := by
        simp [LockTable.acquire, hlk2, h2]
      rw [ha2]
      have hb := h.1 k2 i2 h2
      omega
    | none =>
      have ha2 : (⟨mapInsert t.locks k1 t.nextId, t.nextId + 1⟩ : LockTable K).acquire k2 =
          (⟨mapInsert (mapInsert t.locks k1 t.nextId) k2 (t.nextId + 1), t.nextId + 2⟩,
           t.nextId + 1) := by
        simp [LockTable.acquire, hlk2, h2]
      rw [ha2]
      omega

/-- Witness for C10: the first two keys of a fresh lock table receive
the locks numbered 0 and 1. -/
theorem lockTable_distinct_locks_witness :
    (1 : Nat) ≠ 2 ∧
    ((LockTable.empty : LockTable Nat).acquire 1).2 ≠
      (((LockTable.empty : LockTable Nat).acquire 1).1.acquire 2).2 :=
  ⟨by decide, lockTable_distinct_locks LockTable.empty lockInv_empty 1 2 (by decide)⟩
